import Mathlib

/-!
Shallow embedding of `src/mes2plus/sync_reimport_sn.py`.

The module reconciles serial-number ("barcode") records between an upstream
MES database and a downstream PLUS database.  The pure parts (order-number
extraction, guard decisions, the delete/insert row transformations) are
translated directly; the two databases are modelled as in-memory tables
(lists of rows), the per-write transaction connection (`autocommit=False`,
closed without commit on error, which rolls the transaction back) is
modelled by computing the pending table and discarding it when a failure is
injected.
-/

namespace SyncReimportSn

/-! ### Order-number extraction (`__extract_order_number`)

The Python function runs `re.search` with two patterns, in order:
  1. `pattern_with_suffix = r"[A-Z]+[A-Z0-9-]*(?=-[0-9]-[0-9])"`
  2. `pattern_normal     = r"[A-Z]+[A-Z0-9-]*"`
and falls back to the raw input when neither matches.

`re.search` semantics, embedded faithfully: the match starts at the
leftmost position where the pattern can match.  Since `[A-Z] ⊆ [A-Z0-9-]`
and the quantifiers are greedy with backtracking, a match of
`[A-Z]+[A-Z0-9-]*` starting at position `i` exists for every length
`1 ≤ L ≤ runLen` (where `runLen` is the length of the maximal block of
`[A-Z0-9-]` characters starting at `i`, and the character at `i` is an
uppercase letter), and the engine commits to the largest `L` for which the
rest of the pattern (here: the `(?=-[0-9]-[0-9])` lookahead, or nothing)
succeeds at `i + L`. -/

def is_upper (c : Char) : Bool := 'A' ≤ c && c ≤ 'Z'

def is_digit (c : Char) : Bool := '0' ≤ c && c ≤ '9'

/-- Membership in the character class `[A-Z0-9-]`. -/
def is_run_char (c : Char) : Bool := is_upper c || is_digit c || c == '-'

/-- Length of the maximal leading block of `[A-Z0-9-]` characters. -/
def run_len : List Char → Nat
  | [] => 0
  | c :: cs => if is_run_char c then run_len cs + 1 else 0

/-- The lookahead `(?=-[0-9]-[0-9])`: the next four characters are
`-<digit>-<digit>`. -/
def lookahead_dd : List Char → Bool
  | '-' :: d1 :: '-' :: d2 :: _ => is_digit d1 && is_digit d2
  | _ => false

/-- Greedy match length at a fixed start: the largest `L` with
`1 ≤ L ≤ bound` such that the lookahead succeeds after `L` characters. -/
def best_len (s : List Char) : Nat → Option Nat
  | 0 => none
  | n + 1 => if lookahead_dd (s.drop (n + 1)) then some (n + 1) else best_len s n

/-- Embeds `re.search(pattern_with_suffix, ·)`: leftmost start whose greedy match
satisfies the `-<digit>-<digit>` lookahead. -/
def search_with_suffix : List Char → Option (List Char)
  | [] => none
  | c :: cs =>
    if is_upper c then
      match best_len (c :: cs) (run_len (c :: cs)) with
      | some L => some ((c :: cs).take L)
      | none => search_with_suffix cs
    else search_with_suffix cs

/-- Embeds `re.search(pattern_normal, ·)`: from the leftmost uppercase letter,
the maximal block of `[A-Z0-9-]` characters. -/
def search_normal : List Char → Option (List Char)
  | [] => none
  | c :: cs =>
    if is_upper c then some ((c :: cs).take (run_len (c :: cs)))
    else search_normal cs

/-- Embeds `__extract_order_number`: first priority strips a `-digit-digit`
suffix; second priority takes a plain order number; otherwise the raw
input is returned verbatim. -/
def extract_order_number (order : String) : String :=
  match search_with_suffix order.data with
  | some m => String.mk m
  | none =>
    match search_normal order.data with
    | some m => String.mk m
    | none => order

/-! ### Specification-side notions for the extractor

These two definitions follow the *spec's words* ("a run of uppercase
letters, digits and hyphens", "immediately followed by a
`-<digit>-<digit>` suffix"); they are used to state what the extractor
is claimed to return and to exhibit where the code's leftmost-greedy
search differs from the spec's "longest run". -/

/-- A "run of uppercase letters, digits and hyphens starting with a
letter": nonempty, first character an uppercase letter, every character
in the class `[A-Z0-9-]`. -/
def valid_run : List Char → Bool
  | [] => false
  | c :: cs => is_upper c && (c :: cs).all is_run_char

/-- Holds when the run `r` occurs somewhere in `s` and is
immediately followed by a `-<digit>-<digit>` suffix. -/
def occurs_with_suffix (r : List Char) : List Char → Bool
  | [] => false
  | c :: cs =>
    ((c :: cs).take r.length == r && lookahead_dd ((c :: cs).drop r.length))
      || occurs_with_suffix r cs

/-! ### Data model

Upstream (MES): `jgmes_barcode_data` rows (per-batch barcodes, soft
deleted via `delete_flag`), and the joined rows returned by
`query_mes_recently_barcode_creations` (one per barcode-creation batch).

Downstream (PLUS): the imported-serials table `物料扫码-SN库` (full rows —
the insert stamps provenance columns), and the incoming / outgoing tables
`物料扫码-库存` / `物料扫码-出库`, of which only the columns actually read
(`销售订单`, `SN码`) are modelled. -/

/-- One row of `jgmes_barcode_data`. -/
structure Barcode where
  bd_id : Nat
  bc_id : Nat
  code : String
  delete_flag : Bool
deriving DecidableEq

/-- One row returned by `query_mes_recently_barcode_creations` (batch id,
task code, item code/name, raw order string).  Window and category
filtering happen inside the SQL; the engine consumes the result list. -/
structure BarcodeCreation where
  bc_id : Nat
  task_code : String
  inv_code : String
  inv_name : String
  order_code : String
deriving DecidableEq

/-- One row of the PLUS imported-serials table `物料扫码-SN库`:
(`销售订单`, `物料编码`, `SN码`, `导入来源`, `录入人`, `录入时间`). -/
structure ImportedRow where
  sales_order : String
  inv_code : String
  sn_code : String
  source : String
  entered_by : String
  entered_at : String
deriving DecidableEq

/-- One row of `物料扫码-库存` or `物料扫码-出库`, restricted to the
columns the queries read. -/
structure MoveRow where
  sales_order : String
  sn_code : String
deriving DecidableEq

/-- The downstream PLUS database state. -/
structure PlusDb where
  imported : List ImportedRow
  incoming : List MoveRow
  outgoing : List MoveRow
deriving DecidableEq

/-! ### Queries -/

/-- Embeds `query_mes_barcode_creation_barcodes`: barcodes of batch `bc_id` with
`delete_flag = 0`. -/
def query_mes_barcode_creation_barcodes (rows : List Barcode) (bc_id : Nat) :
    List Barcode :=
  rows.filter (fun b => b.bc_id == bc_id && b.delete_flag == false)

/-- Embeds `query_plus_imported_barcodes`: the `SN码` column of the imported
rows whose `销售订单` equals `order_code`. -/
def query_plus_imported_barcodes (tbl : List ImportedRow) (order_code : String) :
    List String :=
  (tbl.filter (fun r => r.sales_order == order_code)).map (fun r => r.sn_code)

/-- Embeds `query_plus_incoming_barcodes`: the `SN码` column of the incoming
rows whose `销售订单` equals `order_code`. -/
def query_plus_incoming_barcodes (tbl : List MoveRow) (order_code : String) :
    List String :=
  (tbl.filter (fun r => r.sales_order == order_code)).map (fun r => r.sn_code)

/-- Embeds `query_plus_outgoing_barcodes`: the `SN码` column of the outgoing
rows whose `销售订单` equals `order_code`. -/
def query_plus_outgoing_barcodes (tbl : List MoveRow) (order_code : String) :
    List String :=
  (tbl.filter (fun r => r.sales_order == order_code)).map (fun r => r.sn_code)

/-! ### Writes -/

/-- Embeds `delete_plus_imported_barcodes`: delete every imported row whose
`销售订单` equals `order_code`; the second component is `cursor.rowcount`
(the number of rows deleted). -/
def delete_plus_imported_barcodes (tbl : List ImportedRow) (order_code : String) :
    List ImportedRow × Nat :=
  (tbl.filter (fun r => !(r.sales_order == order_code)),
   (tbl.filter (fun r => r.sales_order == order_code)).length)

/-- Embeds `insert_plus_barcodes`: bulk-insert one row per barcode, stamped with
source `"机器人"`, actor `"机器人"` and the current timestamp `now`; the
second component is `cursor.rowcount` (the number of rows inserted). -/
def insert_plus_barcodes (tbl : List ImportedRow) (order_code inv_code : String)
    (barcodes : List Barcode) (now : String) : List ImportedRow × Nat :=
  let params := barcodes.map
    (fun b => ImportedRow.mk order_code inv_code b.code "机器人" "机器人" now)
  (tbl ++ params, params.length)

/-! ### The reimport transaction

The source opens a dedicated connection `plus_txn_conn = get_plus_conn(
autocommit=False)`, runs the delete and then the insert on it, and commits
only after both succeed.  On any exception it logs, re-raises, and the
`finally` block closes the connection with the transaction uncommitted,
which rolls it back — so the pending state never becomes visible.
`FailPoint` injects the failure the spec's atomicity property talks
about. -/

/-- Where (if anywhere) a failure is injected inside the transaction. -/
inductive FailPoint where
  | no_fail
  | after_delete
  | during_insert (rows_done : Nat)
deriving DecidableEq

/-- Outcome of processing one barcode-creation batch. -/
inductive Outcome where
  | skip_count
  | skip_equal
  | skip_movement
  | reimported (delete_count insert_count : Nat)
  | failed
deriving DecidableEq

/-- The delete-then-insert transaction for one order code.  Returns the
committed database plus `some (delete_count, insert_count)` on success,
or the original database plus `none` when the injected failure aborts the
transaction (the pending table is discarded by the rollback). -/
def reimport (db : PlusDb) (order_code inv_code : String)
    (mes_barcodes : List Barcode) (now : String) (fp : FailPoint) :
    PlusDb × Option (Nat × Nat) :=
  let del := delete_plus_imported_barcodes db.imported order_code
  match fp with
  | .after_delete => (db, none)
  | .during_insert _ => (db, none)
  | .no_fail =>
    let ins := insert_plus_barcodes del.1 order_code inv_code mes_barcodes now
    ({ db with imported := ins.1 }, some (del.2, ins.2))

/-! ### The per-batch engine body (`__main__` loop body) -/

/-- Python `set(xs) == set(ys)` on the two code lists: mutual
containment, i.e. equality as sets (order-independent, duplicates
collapsed). -/
def codes_set_eq (xs ys : List String) : Bool :=
  xs.all (fun c => ys.contains c) && ys.all (fun c => xs.contains c)

/-- One iteration of the `for barcode_creation in barcode_creations`
loop: extract the order code, fetch both code lists, run the three
guards in source order (count mismatch → skip; equal sets → skip;
incoming/outgoing rows exist → skip), otherwise perform the reimport
transaction. -/
def process_barcode_creation (mes_data : List Barcode) (db : PlusDb)
    (bc : BarcodeCreation) (now : String) (fp : FailPoint) :
    PlusDb × Outcome :=
  let order_code := extract_order_number bc.order_code
  let mes_barcodes := query_mes_barcode_creation_barcodes mes_data bc.bc_id
  let mes_codes := mes_barcodes.map (fun b => b.code)
  let plus_codes := query_plus_imported_barcodes db.imported order_code
  if mes_codes.length != plus_codes.length then (db, .skip_count)
  else if codes_set_eq mes_codes plus_codes then (db, .skip_equal)
  else
    let plus_incoming := query_plus_incoming_barcodes db.incoming order_code
    let plus_outgoing := query_plus_outgoing_barcodes db.outgoing order_code
    if plus_incoming != [] || plus_outgoing != [] then (db, .skip_movement)
    else
      let r := reimport db order_code bc.inv_code mes_barcodes now fp
      match r.2 with
      | some counts => (r.1, .reimported counts.1 counts.2)
      | none => (r.1, .failed)

/-- The whole run over the recent batches.  `fps` injects one failure
point per batch (missing entries mean no failure).  When a batch's
transaction fails, the source logs and re-raises, so the loop stops: the
remaining batches are not processed. -/
def main_loop (mes_data : List Barcode) (now : String) :
    List BarcodeCreation → List FailPoint → PlusDb → PlusDb × List Outcome
  | [], _, db => (db, [])
  | bc :: rest, fps, db =>
    let step := process_barcode_creation mes_data db bc now (fps.headD .no_fail)
    if step.2 = Outcome.failed then (step.1, [Outcome.failed])
    else
      let tail := main_loop mes_data now rest fps.tail step.1
      (tail.1, step.2 :: tail.2)

/-- The row a reimport writes for one upstream barcode. -/
def robot_row (order_code inv_code now : String) (b : Barcode) : ImportedRow :=
  ImportedRow.mk order_code inv_code b.code "机器人" "机器人" now

/-- The imported table after a committed reimport for `order_code`. -/
def reimported_table (tbl : List ImportedRow) (order_code inv_code now : String)
    (mes_barcodes : List Barcode) : List ImportedRow :=
  tbl.filter (fun r => !(r.sales_order == order_code))
    ++ mes_barcodes.map (robot_row order_code inv_code now)

/-- The whole downstream state after a committed reimport. -/
def reimported_db (db : PlusDb) (order_code inv_code now : String)
    (mes_barcodes : List Barcode) : PlusDb :=
  { db with imported := reimported_table db.imported order_code inv_code now mes_barcodes }

/-- A skip outcome (one of the three guards fired). -/
def is_skip : Outcome → Bool
  | .skip_count => true
  | .skip_equal => true
  | .skip_movement => true
  | .reimported _ _ => false
  | .failed => false

/-! ## Lemmas about the engine -/

theorem reimport_snd (db : PlusDb) (order_code inv_code : String)
    (mes_barcodes : List Barcode) (now : String) (fp : FailPoint) :
    (reimport db order_code inv_code mes_barcodes now fp).2
      = if fp = FailPoint.no_fail
        then some ((query_plus_imported_barcodes db.imported order_code).length,
                   mes_barcodes.length)
        else none := by
  cases fp <;>
    simp [reimport, delete_plus_imported_barcodes, insert_plus_barcodes,
      query_plus_imported_barcodes]

theorem length_query_plus_imported (tbl : List ImportedRow) (o : String) :
    (query_plus_imported_barcodes tbl o).length
      = (tbl.filter (fun r => r.sales_order == o)).length := by
  simp [query_plus_imported_barcodes]

theorem process_skip_count (mes_data : List Barcode) (db : PlusDb)
    (bc : BarcodeCreation) (now : String) (fp : FailPoint)
    (h1 : (query_mes_barcode_creation_barcodes mes_data bc.bc_id).length
        ≠ (query_plus_imported_barcodes db.imported
            (extract_order_number bc.order_code)).length) :
    process_barcode_creation mes_data db bc now fp = (db, Outcome.skip_count) := by
  have hb : (((query_mes_barcode_creation_barcodes mes_data bc.bc_id).map
      (fun b => b.code)).length
        != (query_plus_imported_barcodes db.imported
            (extract_order_number bc.order_code)).length) = true := by
    simpa [bne_iff_ne] using h1
  simp only [process_barcode_creation]
  rw [if_pos hb]

theorem process_skip_equal (mes_data : List Barcode) (db : PlusDb)
    (bc : BarcodeCreation) (now : String) (fp : FailPoint)
    (h1 : (query_mes_barcode_creation_barcodes mes_data bc.bc_id).length
        = (query_plus_imported_barcodes db.imported
            (extract_order_number bc.order_code)).length)
    (h2 : codes_set_eq
        ((query_mes_barcode_creation_barcodes mes_data bc.bc_id).map (fun b => b.code))
        (query_plus_imported_barcodes db.imported
          (extract_order_number bc.order_code)) = true) :
    process_barcode_creation mes_data db bc now fp = (db, Outcome.skip_equal) := by
  have hb : (((query_mes_barcode_creation_barcodes mes_data bc.bc_id).map
      (fun b => b.code)).length
        != (query_plus_imported_barcodes db.imported
            (extract_order_number bc.order_code)).length) = false := by
    simpa [bne_iff_ne] using h1
  simp only [process_barcode_creation]
  rw [hb, h2]
  simp

theorem process_skip_movement (mes_data : List Barcode) (db : PlusDb)
    (bc : BarcodeCreation) (now : String) (fp : FailPoint)
    (h1 : (query_mes_barcode_creation_barcodes mes_data bc.bc_id).length
        = (query_plus_imported_barcodes db.imported
            (extract_order_number bc.order_code)).length)
    (h2 : codes_set_eq
        ((query_mes_barcode_creation_barcodes mes_data bc.bc_id).map (fun b => b.code))
        (query_plus_imported_barcodes db.imported
          (extract_order_number bc.order_code)) = false)
    (h3 : query_plus_incoming_barcodes db.incoming (extract_order_number bc.order_code) ≠ []
        ∨ query_plus_outgoing_barcodes db.outgoing (extract_order_number bc.order_code) ≠ []) :
    process_barcode_creation mes_data db bc now fp = (db, Outcome.skip_movement) := by
  have hb : (((query_mes_barcode_creation_barcodes mes_data bc.bc_id).map
      (fun b => b.code)).length
        != (query_plus_imported_barcodes db.imported
            (extract_order_number bc.order_code)).length) = false := by
    simpa [bne_iff_ne] using h1
  have hm : ((query_plus_incoming_barcodes db.incoming
        (extract_order_number bc.order_code) != [])
      || (query_plus_outgoing_barcodes db.outgoing
        (extract_order_number bc.order_code) != [])) = true := by
    rcases h3 with h | h <;> simp [bne_iff_ne, h]
  simp only [process_barcode_creation]
  rw [hb, h2, hm]
  simp

theorem process_reimport (mes_data : List Barcode) (db : PlusDb)
    (bc : BarcodeCreation) (now : String)
    (h1 : (query_mes_barcode_creation_barcodes mes_data bc.bc_id).length
        = (query_plus_imported_barcodes db.imported
            (extract_order_number bc.order_code)).length)
    (h2 : codes_set_eq
        ((query_mes_barcode_creation_barcodes mes_data bc.bc_id).map (fun b => b.code))
        (query_plus_imported_barcodes db.imported
          (extract_order_number bc.order_code)) = false)
    (h3 : query_plus_incoming_barcodes db.incoming (extract_order_number bc.order_code) = [])
    (h4 : query_plus_outgoing_barcodes db.outgoing (extract_order_number bc.order_code) = []) :
    process_barcode_creation mes_data db bc now FailPoint.no_fail
      = (reimported_db db (extract_order_number bc.order_code) bc.inv_code now
           (query_mes_barcode_creation_barcodes mes_data bc.bc_id),
         Outcome.reimported
           (query_plus_imported_barcodes db.imported
             (extract_order_number bc.order_code)).length
           (query_mes_barcode_creation_barcodes mes_data bc.bc_id).length) := by
  have hb : (((query_mes_barcode_creation_barcodes mes_data bc.bc_id).map
      (fun b => b.code)).length
        != (query_plus_imported_barcodes db.imported
            (extract_order_number bc.order_code)).length) = false := by
    simpa [bne_iff_ne] using h1
  simp only [process_barcode_creation]
  rw [hb, h2, h3, h4]
  simp [reimport, delete_plus_imported_barcodes, insert_plus_barcodes,
    reimported_db, reimported_table, robot_row, length_query_plus_imported]

theorem process_failed (mes_data : List Barcode) (db : PlusDb)
    (bc : BarcodeCreation) (now : String) (fp : FailPoint)
    (hfp : fp ≠ FailPoint.no_fail)
    (h1 : (query_mes_barcode_creation_barcodes mes_data bc.bc_id).length
        = (query_plus_imported_barcodes db.imported
            (extract_order_number bc.order_code)).length)
    (h2 : codes_set_eq
        ((query_mes_barcode_creation_barcodes mes_data bc.bc_id).map (fun b => b.code))
        (query_plus_imported_barcodes db.imported
          (extract_order_number bc.order_code)) = false)
    (h3 : query_plus_incoming_barcodes db.incoming (extract_order_number bc.order_code) = [])
    (h4 : query_plus_outgoing_barcodes db.outgoing (extract_order_number bc.order_code) = []) :
    process_barcode_creation mes_data db bc now fp = (db, Outcome.failed) := by
  have hb : (((query_mes_barcode_creation_barcodes mes_data bc.bc_id).map
      (fun b => b.code)).length
        != (query_plus_imported_barcodes db.imported
            (extract_order_number bc.order_code)).length) = false := by
    simpa [bne_iff_ne] using h1
  simp only [process_barcode_creation]
  rw [hb, h2, h3, h4]
  cases fp with
  | no_fail => exact absurd rfl hfp
  | after_delete => simp [reimport]
  | during_insert k => simp [reimport]

/-- Exhaustive description of one loop iteration: exactly one of the five
branches happens, together with the guard facts that select it. -/
theorem process_cases (mes_data : List Barcode) (db : PlusDb)
    (bc : BarcodeCreation) (now : String) (fp : FailPoint) :
    (process_barcode_creation mes_data db bc now fp = (db, Outcome.skip_count)
      ∧ (query_mes_barcode_creation_barcodes mes_data bc.bc_id).length
          ≠ (query_plus_imported_barcodes db.imported
              (extract_order_number bc.order_code)).length)
    ∨ (process_barcode_creation mes_data db bc now fp = (db, Outcome.skip_equal)
      ∧ (query_mes_barcode_creation_barcodes mes_data bc.bc_id).length
          = (query_plus_imported_barcodes db.imported
              (extract_order_number bc.order_code)).length
      ∧ codes_set_eq
          ((query_mes_barcode_creation_barcodes mes_data bc.bc_id).map (fun b => b.code))
          (query_plus_imported_barcodes db.imported
            (extract_order_number bc.order_code)) = true)
    ∨ (process_barcode_creation mes_data db bc now fp = (db, Outcome.skip_movement)
      ∧ (query_mes_barcode_creation_barcodes mes_data bc.bc_id).length
          = (query_plus_imported_barcodes db.imported
              (extract_order_number bc.order_code)).length
      ∧ codes_set_eq
          ((query_mes_barcode_creation_barcodes mes_data bc.bc_id).map (fun b => b.code))
          (query_plus_imported_barcodes db.imported
            (extract_order_number bc.order_code)) = false
      ∧ (query_plus_incoming_barcodes db.incoming (extract_order_number bc.order_code) ≠ []
          ∨ query_plus_outgoing_barcodes db.outgoing (extract_order_number bc.order_code) ≠ []))
    ∨ (fp = FailPoint.no_fail
      ∧ process_barcode_creation mes_data db bc now fp
          = (reimported_db db (extract_order_number bc.order_code) bc.inv_code now
               (query_mes_barcode_creation_barcodes mes_data bc.bc_id),
             Outcome.reimported
               (query_plus_imported_barcodes db.imported
                 (extract_order_number bc.order_code)).length
               (query_mes_barcode_creation_barcodes mes_data bc.bc_id).length)
      ∧ (query_mes_barcode_creation_barcodes mes_data bc.bc_id).length
          = (query_plus_imported_barcodes db.imported
              (extract_order_number bc.order_code)).length
      ∧ codes_set_eq
          ((query_mes_barcode_creation_barcodes mes_data bc.bc_id).map (fun b => b.code))
          (query_plus_imported_barcodes db.imported
            (extract_order_number bc.order_code)) = false
      ∧ query_plus_incoming_barcodes db.incoming (extract_order_number bc.order_code) = []
      ∧ query_plus_outgoing_barcodes db.outgoing (extract_order_number bc.order_code) = [])
    ∨ (fp ≠ FailPoint.no_fail
      ∧ process_barcode_creation mes_data db bc now fp = (db, Outcome.failed)
      ∧ (query_mes_barcode_creation_barcodes mes_data bc.bc_id).length
          = (query_plus_imported_barcodes db.imported
              (extract_order_number bc.order_code)).length
      ∧ codes_set_eq
          ((query_mes_barcode_creation_barcodes mes_data bc.bc_id).map (fun b => b.code))
          (query_plus_imported_barcodes db.imported
            (extract_order_number bc.order_code)) = false
      ∧ query_plus_incoming_barcodes db.incoming (extract_order_number bc.order_code) = []
      ∧ query_plus_outgoing_barcodes db.outgoing (extract_order_number bc.order_code) = []) := by
  by_cases h1 :
      (query_mes_barcode_creation_barcodes mes_data bc.bc_id).length
        = (query_plus_imported_barcodes db.imported
            (extract_order_number bc.order_code)).length
  · by_cases h2 :
        codes_set_eq
          ((query_mes_barcode_creation_barcodes mes_data bc.bc_id).map (fun b => b.code))
          (query_plus_imported_barcodes db.imported
            (extract_order_number bc.order_code)) = true
    · exact Or.inr (Or.inl ⟨process_skip_equal mes_data db bc now fp h1 h2, h1, h2⟩)
    · rw [Bool.not_eq_true] at h2
      by_cases h3 :
          query_plus_incoming_barcodes db.incoming (extract_order_number bc.order_code) = []
            ∧ query_plus_outgoing_barcodes db.outgoing (extract_order_number bc.order_code) = []
      · cases fp with
        | no_fail =>
          exact Or.inr (Or.inr (Or.inr (Or.inl
            ⟨rfl, process_reimport mes_data db bc now h1 h2 h3.1 h3.2, h1, h2, h3.1, h3.2⟩)))
        | after_delete =>
          exact Or.inr (Or.inr (Or.inr (Or.inr
            ⟨by simp, process_failed mes_data db bc now _ (by simp) h1 h2 h3.1 h3.2,
             h1, h2, h3.1, h3.2⟩)))
        | during_insert k =>
          exact Or.inr (Or.inr (Or.inr (Or.inr
            ⟨by simp, process_failed mes_data db bc now _ (by simp) h1 h2 h3.1 h3.2,
             h1, h2, h3.1, h3.2⟩)))
      · have h3' := Decidable.not_and_iff_or_not.mp h3
        exact Or.inr (Or.inr (Or.inl
          ⟨process_skip_movement mes_data db bc now fp h1 h2 h3', h1, h2, h3'⟩))
  · exact Or.inl ⟨process_skip_count mes_data db bc now fp h1, h1⟩

/-! ### Consequences of `process_cases` and facts about the rewritten table -/

theorem process_preserves_moves (mes_data : List Barcode) (db : PlusDb)
    (bc : BarcodeCreation) (now : String) (fp : FailPoint) :
    (process_barcode_creation mes_data db bc now fp).1.incoming = db.incoming
      ∧ (process_barcode_creation mes_data db bc now fp).1.outgoing = db.outgoing := by
  rcases process_cases mes_data db bc now fp with
    ⟨hp, -⟩ | ⟨hp, -⟩ | ⟨hp, -⟩ | ⟨-, hp, -⟩ | ⟨-, hp, -⟩ <;>
    rw [hp] <;> exact ⟨rfl, rfl⟩

theorem process_fst_of_not_reimported (mes_data : List Barcode) (db : PlusDb)
    (bc : BarcodeCreation) (now : String) (fp : FailPoint)
    (h : ∀ d i, (process_barcode_creation mes_data db bc now fp).2 ≠ Outcome.reimported d i) :
    (process_barcode_creation mes_data db bc now fp).1 = db := by
  rcases process_cases mes_data db bc now fp with
    ⟨hp, -⟩ | ⟨hp, -⟩ | ⟨hp, -⟩ | ⟨-, hp, -⟩ | ⟨-, hp, -⟩ <;> rw [hp]
  exact absurd (by rw [hp]) (h _ _)

theorem filter_erase_then_same (tbl : List ImportedRow) (o : String) :
    (tbl.filter (fun r => !(r.sales_order == o))).filter
      (fun r => r.sales_order == o) = [] := by
  rw [List.filter_filter, List.filter_eq_nil_iff]
  intro r _ hr
  rcases Bool.and_eq_true_iff.mp hr with ⟨h1, h2⟩
  rw [beq_iff_eq.mp h1] at h2
  simp at h2

theorem filter_erase_then_other (tbl : List ImportedRow) (o o' : String) (h : o' ≠ o) :
    (tbl.filter (fun r => !(r.sales_order == o))).filter
      (fun r => r.sales_order == o')
      = tbl.filter (fun r => r.sales_order == o') := by
  rw [List.filter_filter]
  refine List.filter_congr (fun r _ => ?_)
  by_cases hr : r.sales_order = o'
  · have : (r.sales_order == o) = false := by
      rw [beq_eq_false_iff_ne, hr]
      exact h
    simp [hr, this]
    exact h
  · simp [hr]

theorem filter_robot_rows_same (bs : List Barcode) (o c now : String) :
    (bs.map (robot_row o c now)).filter (fun r => r.sales_order == o)
      = bs.map (robot_row o c now) := by
  rw [List.filter_map]
  have : ((fun r => r.sales_order == o) ∘ robot_row o c now) = fun _ => true := by
    funext b
    simp [robot_row]
  rw [this, List.filter_true]

theorem filter_robot_rows_other (bs : List Barcode) (o c now o' : String) (h : o' ≠ o) :
    (bs.map (robot_row o c now)).filter (fun r => r.sales_order == o') = [] := by
  rw [List.filter_map]
  have : ((fun r => r.sales_order == o') ∘ robot_row o c now) = fun _ => false := by
    funext b
    simp [robot_row]
    exact fun he => h he.symm
  rw [this, List.filter_false, List.map_nil]

/-- After a committed reimport the imported codes of the rewritten order
code are exactly the codes of the upstream barcodes, in order. -/
theorem query_reimported_same (tbl : List ImportedRow) (o c now : String)
    (bs : List Barcode) :
    query_plus_imported_barcodes (reimported_table tbl o c now bs) o
      = bs.map (fun b => b.code) := by
  unfold query_plus_imported_barcodes reimported_table
  rw [List.filter_append, filter_erase_then_same, filter_robot_rows_same]
  simp [robot_row]

/-- A committed reimport for `o` does not touch the imported rows of any
other order code. -/
theorem query_reimported_other (tbl : List ImportedRow) (o c now o' : String)
    (bs : List Barcode) (h : o' ≠ o) :
    query_plus_imported_barcodes (reimported_table tbl o c now bs) o'
      = query_plus_imported_barcodes tbl o' := by
  unfold query_plus_imported_barcodes reimported_table
  rw [List.filter_append, filter_erase_then_other tbl o o' h,
    filter_robot_rows_other bs o c now o' h]
  simp

/-- A single loop iteration never changes the imported rows of an order
code other than the one it extracted. -/
theorem process_frame (mes_data : List Barcode) (db : PlusDb)
    (bc : BarcodeCreation) (now : String) (fp : FailPoint) (o : String)
    (h : o ≠ extract_order_number bc.order_code) :
    query_plus_imported_barcodes
        (process_barcode_creation mes_data db bc now fp).1.imported o
      = query_plus_imported_barcodes db.imported o := by
  rcases process_cases mes_data db bc now fp with
    ⟨hp, -⟩ | ⟨hp, -⟩ | ⟨hp, -⟩ | ⟨-, hp, -⟩ | ⟨-, hp, -⟩ <;> rw [hp]
  exact query_reimported_other _ _ _ _ _ _ h

theorem is_skip_ne_reimported {out : Outcome} (h : is_skip out = true) :
    ∀ d i, out ≠ Outcome.reimported d i := by
  intro d i he
  rw [he] at h
  simp [is_skip] at h

theorem codes_set_eq_self (xs : List String) : codes_set_eq xs xs = true := by
  have : xs.all (fun c => xs.contains c) = true := by
    rw [List.all_eq_true]
    intro c hc
    exact List.elem_iff.mpr hc
  simp [codes_set_eq, this]

theorem process_no_fail_ne_failed (mes_data : List Barcode) (db : PlusDb)
    (bc : BarcodeCreation) (now : String) :
    (process_barcode_creation mes_data db bc now FailPoint.no_fail).2 ≠ Outcome.failed := by
  rcases process_cases mes_data db bc now FailPoint.no_fail with
    ⟨hp, -⟩ | ⟨hp, -⟩ | ⟨hp, -⟩ | ⟨-, hp, -⟩ | ⟨hfp, -⟩
  · rw [hp]; simp
  · rw [hp]; simp
  · rw [hp]; simp
  · rw [hp]; simp
  · exact absurd rfl hfp

/-- The batch decision (and the reported counts) depend only on the three
downstream point queries for the extracted order code. -/
theorem process_outcome_congr (mes_data : List Barcode) (bc : BarcodeCreation)
    (now : String) (fp : FailPoint) (db e : PlusDb)
    (h1 : query_plus_imported_barcodes db.imported (extract_order_number bc.order_code)
        = query_plus_imported_barcodes e.imported (extract_order_number bc.order_code))
    (h2 : query_plus_incoming_barcodes db.incoming (extract_order_number bc.order_code)
        = query_plus_incoming_barcodes e.incoming (extract_order_number bc.order_code))
    (h3 : query_plus_outgoing_barcodes db.outgoing (extract_order_number bc.order_code)
        = query_plus_outgoing_barcodes e.outgoing (extract_order_number bc.order_code)) :
    (process_barcode_creation mes_data db bc now fp).2
      = (process_barcode_creation mes_data e bc now fp).2 := by
  rcases process_cases mes_data db bc now fp with
    ⟨hp, hl⟩ | ⟨hp, hl, hs⟩ | ⟨hp, hl, hs, hm⟩ | ⟨hfp, hp, hl, hs, hi, ho⟩
      | ⟨hfp, hp, hl, hs, hi, ho⟩
  · rw [hp, process_skip_count mes_data e bc now fp (h1 ▸ hl)]
  · rw [hp, process_skip_equal mes_data e bc now fp (h1 ▸ hl) (h1 ▸ hs)]
  · rw [hp, process_skip_movement mes_data e bc now fp (h1 ▸ hl) (h1 ▸ hs)
      (by rw [← h2, ← h3]; exact hm)]
  · rw [hfp] at hp ⊢
    rw [hp, process_reimport mes_data e bc now (h1 ▸ hl) (h1 ▸ hs) (h2 ▸ hi) (h3 ▸ ho)]
    rw [h1]
  · rw [hp, process_failed mes_data e bc now fp hfp (h1 ▸ hl) (h1 ▸ hs) (h2 ▸ hi) (h3 ▸ ho)]

/-- Reprocessing a batch against its own (non-failed) result is a skip:
either the original skip fires again, or — after a committed reimport —
the equality guard fires. -/
theorem process_self_stable (mes_data : List Barcode) (db : PlusDb)
    (bc : BarcodeCreation) (now now2 : String) :
    process_barcode_creation mes_data
        (process_barcode_creation mes_data db bc now FailPoint.no_fail).1
        bc now2 FailPoint.no_fail
      = ((process_barcode_creation mes_data db bc now FailPoint.no_fail).1,
         (process_barcode_creation mes_data
           (process_barcode_creation mes_data db bc now FailPoint.no_fail).1
           bc now2 FailPoint.no_fail).2)
      ∧ is_skip (process_barcode_creation mes_data
          (process_barcode_creation mes_data db bc now FailPoint.no_fail).1
          bc now2 FailPoint.no_fail).2 = true := by
  rcases process_cases mes_data db bc now FailPoint.no_fail with
    ⟨hp, hl⟩ | ⟨hp, hl, hs⟩ | ⟨hp, hl, hs, hm⟩ | ⟨-, hp, hl, hs, hi, ho⟩ | ⟨hfp, -⟩
  · rw [hp]
    rw [process_skip_count mes_data db bc now2 FailPoint.no_fail hl]
    exact ⟨rfl, rfl⟩
  · rw [hp]
    rw [process_skip_equal mes_data db bc now2 FailPoint.no_fail hl hs]
    exact ⟨rfl, rfl⟩
  · rw [hp]
    rw [process_skip_movement mes_data db bc now2 FailPoint.no_fail hl hs hm]
    exact ⟨rfl, rfl⟩
  · rw [hp]
    have hq : query_plus_imported_barcodes
        (reimported_db db (extract_order_number bc.order_code) bc.inv_code now
          (query_mes_barcode_creation_barcodes mes_data bc.bc_id)).imported
        (extract_order_number bc.order_code)
        = (query_mes_barcode_creation_barcodes mes_data bc.bc_id).map (fun b => b.code) :=
      query_reimported_same _ _ _ _ _
    have hlen : (query_mes_barcode_creation_barcodes mes_data bc.bc_id).length
        = (query_plus_imported_barcodes
            (reimported_db db (extract_order_number bc.order_code) bc.inv_code now
              (query_mes_barcode_creation_barcodes mes_data bc.bc_id)).imported
            (extract_order_number bc.order_code)).length := by
      rw [hq, List.length_map]
    have hset : codes_set_eq
        ((query_mes_barcode_creation_barcodes mes_data bc.bc_id).map (fun b => b.code))
        (query_plus_imported_barcodes
          (reimported_db db (extract_order_number bc.order_code) bc.inv_code now
            (query_mes_barcode_creation_barcodes mes_data bc.bc_id)).imported
          (extract_order_number bc.order_code)) = true := by
      rw [hq]
      exact codes_set_eq_self _
    rw [process_skip_equal mes_data _ bc now2 FailPoint.no_fail hlen hset]
    exact ⟨rfl, rfl⟩
  · exact absurd rfl hfp

/-- The run never touches the incoming / outgoing tables. -/
theorem main_loop_preserves_moves (mes_data : List Barcode) (now : String) :
    ∀ (creations : List BarcodeCreation) (fps : List FailPoint) (db : PlusDb),
    (main_loop mes_data now creations fps db).1.incoming = db.incoming
      ∧ (main_loop mes_data now creations fps db).1.outgoing = db.outgoing
  | [], fps, db => ⟨rfl, rfl⟩
  | bc :: rest, fps, db => by
    have hstep := process_preserves_moves mes_data db bc now (fps.headD .no_fail)
    have ih := main_loop_preserves_moves mes_data now rest fps.tail
      (process_barcode_creation mes_data db bc now (fps.headD .no_fail)).1
    simp only [main_loop]
    by_cases hf : (process_barcode_creation mes_data db bc now (fps.headD .no_fail)).2
        = Outcome.failed
    · rw [if_pos hf]
      exact hstep
    · rw [if_neg hf]
      exact ⟨ih.1.trans hstep.1, ih.2.trans hstep.2⟩

/-- The run never touches the imported rows of an order code that no
processed batch extracts. -/
theorem main_loop_frame (mes_data : List Barcode) (now : String) (o : String) :
    ∀ (creations : List BarcodeCreation) (fps : List FailPoint) (db : PlusDb),
    (∀ bc ∈ creations, extract_order_number bc.order_code ≠ o) →
    query_plus_imported_barcodes (main_loop mes_data now creations fps db).1.imported o
      = query_plus_imported_barcodes db.imported o
  | [], fps, db, _ => rfl
  | bc :: rest, fps, db, h => by
    have hbc : o ≠ extract_order_number bc.order_code :=
      fun he => h bc (List.mem_cons_self bc rest) he.symm
    have hstep := process_frame mes_data db bc now (fps.headD .no_fail) o hbc
    have ih := main_loop_frame mes_data now o rest fps.tail
      (process_barcode_creation mes_data db bc now (fps.headD .no_fail)).1
      (fun bc' hm => h bc' (List.mem_cons_of_mem bc hm))
    simp only [main_loop]
    by_cases hf : (process_barcode_creation mes_data db bc now (fps.headD .no_fail)).2
        = Outcome.failed
    · rw [if_pos hf]
      exact hstep
    · rw [if_neg hf]
      exact ih.trans hstep

theorem is_skip_ne_failed {out : Outcome} (h : is_skip out = true) :
    out ≠ Outcome.failed := by
  intro he
  rw [he] at h
  simp [is_skip] at h

theorem main_loop_cons (mes_data : List Barcode) (now : String)
    (bc : BarcodeCreation) (rest : List BarcodeCreation) (fps : List FailPoint)
    (db : PlusDb)
    (h : (process_barcode_creation mes_data db bc now (fps.headD .no_fail)).2
        ≠ Outcome.failed) :
    main_loop mes_data now (bc :: rest) fps db
      = ((main_loop mes_data now rest fps.tail
            (process_barcode_creation mes_data db bc now (fps.headD .no_fail)).1).1,
         (process_barcode_creation mes_data db bc now (fps.headD .no_fail)).2
           :: (main_loop mes_data now rest fps.tail
            (process_barcode_creation mes_data db bc now (fps.headD .no_fail)).1).2) := by
  simp only [main_loop]
  rw [if_neg h]

theorem main_loop_cons_failed (mes_data : List Barcode) (now : String)
    (bc : BarcodeCreation) (rest : List BarcodeCreation) (fps : List FailPoint)
    (db : PlusDb)
    (h : (process_barcode_creation mes_data db bc now (fps.headD .no_fail)).2
        = Outcome.failed) :
    main_loop mes_data now (bc :: rest) fps db
      = ((process_barcode_creation mes_data db bc now (fps.headD .no_fail)).1,
         [Outcome.failed]) := by
  simp only [main_loop]
  rw [if_pos h]

/-- Specialisation of `main_loop_cons` to an empty failure schedule (the normal,
failure-free run). -/
theorem main_loop_cons_nil (mes_data : List Barcode) (now : String)
    (bc : BarcodeCreation) (rest : List BarcodeCreation) (db : PlusDb)
    (h : (process_barcode_creation mes_data db bc now FailPoint.no_fail).2
        ≠ Outcome.failed) :
    main_loop mes_data now (bc :: rest) [] db
      = ((main_loop mes_data now rest []
            (process_barcode_creation mes_data db bc now FailPoint.no_fail).1).1,
         (process_barcode_creation mes_data db bc now FailPoint.no_fail).2
           :: (main_loop mes_data now rest []
            (process_barcode_creation mes_data db bc now FailPoint.no_fail).1).2) :=
  main_loop_cons mes_data now bc rest [] db h

/-- Movement lock, run-level: if the downstream has incoming or outgoing
rows for an order code, no run — whatever batches it sees and wherever
failures are injected — changes the imported rows of that order code. -/
theorem main_loop_movement_locked (mes_data : List Barcode) (now : String) (o : String) :
    ∀ (creations : List BarcodeCreation) (fps : List FailPoint) (db : PlusDb),
    (query_plus_incoming_barcodes db.incoming o ≠ []
      ∨ query_plus_outgoing_barcodes db.outgoing o ≠ []) →
    query_plus_imported_barcodes (main_loop mes_data now creations fps db).1.imported o
      = query_plus_imported_barcodes db.imported o
  | [], _, db, _ => rfl
  | bc :: rest, fps, db, hmv => by
    have hstep : query_plus_imported_barcodes
        (process_barcode_creation mes_data db bc now (fps.headD .no_fail)).1.imported o
        = query_plus_imported_barcodes db.imported o := by
      by_cases ho : extract_order_number bc.order_code = o
      · have hnr : ∀ d i, (process_barcode_creation mes_data db bc now
            (fps.headD .no_fail)).2 ≠ Outcome.reimported d i := by
          intro d i he
          rcases process_cases mes_data db bc now (fps.headD .no_fail) with
            ⟨hp, -⟩ | ⟨hp, -⟩ | ⟨hp, -⟩ | ⟨-, hp, -, -, hi, hoq⟩ | ⟨-, hp, -⟩ <;>
            rw [hp] at he
          · exact Outcome.noConfusion he
          · exact Outcome.noConfusion he
          · exact Outcome.noConfusion he
          · rw [ho] at hi hoq
            rcases hmv with hmv | hmv
            · exact hmv hi
            · exact hmv hoq
          · exact Outcome.noConfusion he
        rw [process_fst_of_not_reimported mes_data db bc now (fps.headD .no_fail) hnr]
      · exact process_frame mes_data db bc now (fps.headD .no_fail) o
          (fun he => ho he.symm)
    have hmoves := process_preserves_moves mes_data db bc now (fps.headD .no_fail)
    have hmv' : (query_plus_incoming_barcodes
          (process_barcode_creation mes_data db bc now (fps.headD .no_fail)).1.incoming o ≠ []
        ∨ query_plus_outgoing_barcodes
          (process_barcode_creation mes_data db bc now (fps.headD .no_fail)).1.outgoing o ≠ []) := by
      rw [hmoves.1, hmoves.2]
      exact hmv
    have ih := main_loop_movement_locked mes_data now o rest fps.tail
      (process_barcode_creation mes_data db bc now (fps.headD .no_fail)).1 hmv'
    by_cases hf : (process_barcode_creation mes_data db bc now (fps.headD .no_fail)).2
        = Outcome.failed
    · rw [main_loop_cons_failed mes_data now bc rest fps db hf]
      exact hstep
    · rw [main_loop_cons mes_data now bc rest fps db hf]
      exact ih.trans hstep

/-- Idempotence under pairwise-distinct extracted order codes: the second
run leaves the downstream untouched and every batch skips. -/
theorem second_run_all_skips (mes_data : List Barcode) (now now2 : String) :
    ∀ (creations : List BarcodeCreation) (db : PlusDb),
    ((creations.map (fun bc => extract_order_number bc.order_code)).Nodup) →
    (main_loop mes_data now2 creations []
        (main_loop mes_data now creations [] db).1).1
      = (main_loop mes_data now creations [] db).1
    ∧ ∀ out ∈ (main_loop mes_data now2 creations []
        (main_loop mes_data now creations [] db).1).2, is_skip out = true
  | [], db, _ => ⟨rfl, by intro out h; exact absurd h (List.not_mem_nil out)⟩
  | bc :: rest, db, hnd => by
    rw [List.map_cons, List.nodup_cons] at hnd
    obtain ⟨hnotin, hnd'⟩ := hnd
    have hne : (process_barcode_creation mes_data db bc now FailPoint.no_fail).2
        ≠ Outcome.failed :=
      process_no_fail_ne_failed mes_data db bc now
    have hrun1 := main_loop_cons_nil mes_data now bc rest db hne
    have ih := second_run_all_skips mes_data now now2 rest
      (process_barcode_creation mes_data db bc now FailPoint.no_fail).1 hnd'
    have hrest : ∀ bc' ∈ rest, extract_order_number bc'.order_code
        ≠ extract_order_number bc.order_code := by
      intro bc' hm he
      exact hnotin (he ▸ List.mem_map_of_mem (fun b => extract_order_number b.order_code) hm)
    have hv1 : query_plus_imported_barcodes
        (main_loop mes_data now rest []
          (process_barcode_creation mes_data db bc now FailPoint.no_fail).1).1.imported
        (extract_order_number bc.order_code)
        = query_plus_imported_barcodes
          (process_barcode_creation mes_data db bc now FailPoint.no_fail).1.imported
          (extract_order_number bc.order_code) :=
      main_loop_frame mes_data now (extract_order_number bc.order_code) rest []
        (process_barcode_creation mes_data db bc now FailPoint.no_fail).1 hrest
    have hv2 := main_loop_preserves_moves mes_data now rest []
      (process_barcode_creation mes_data db bc now FailPoint.no_fail).1
    have hstab := process_self_stable mes_data db bc now now2
    have houtc : (process_barcode_creation mes_data
        (main_loop mes_data now rest []
          (process_barcode_creation mes_data db bc now FailPoint.no_fail).1).1
        bc now2 FailPoint.no_fail).2
        = (process_barcode_creation mes_data
          (process_barcode_creation mes_data db bc now FailPoint.no_fail).1
          bc now2 FailPoint.no_fail).2 :=
      process_outcome_congr mes_data bc now2 FailPoint.no_fail _ _
        hv1 (by rw [hv2.1]) (by rw [hv2.2])
    have hskip2 : is_skip (process_barcode_creation mes_data
        (main_loop mes_data now rest []
          (process_barcode_creation mes_data db bc now FailPoint.no_fail).1).1
        bc now2 FailPoint.no_fail).2 = true := by
      rw [houtc]
      exact hstab.2
    have hfst2 : (process_barcode_creation mes_data
        (main_loop mes_data now rest []
          (process_barcode_creation mes_data db bc now FailPoint.no_fail).1).1
        bc now2 FailPoint.no_fail).1
        = (main_loop mes_data now rest []
          (process_barcode_creation mes_data db bc now FailPoint.no_fail).1).1 :=
      process_fst_of_not_reimported mes_data _ bc now2 FailPoint.no_fail
        (is_skip_ne_reimported hskip2)
    have hne2 : (process_barcode_creation mes_data
        (main_loop mes_data now rest []
          (process_barcode_creation mes_data db bc now FailPoint.no_fail).1).1
        bc now2 FailPoint.no_fail).2 ≠ Outcome.failed :=
      is_skip_ne_failed hskip2
    have hrun2 := main_loop_cons_nil mes_data now2 bc rest
      (main_loop mes_data now rest []
        (process_barcode_creation mes_data db bc now FailPoint.no_fail).1).1 hne2
    rw [hrun1]
    rw [hrun2, hfst2, ih.1]
    refine ⟨rfl, ?_⟩
    intro out hm
    rcases List.mem_cons.mp hm with hm | hm
    · rw [hm]
      exact hskip2
    · exact ih.2 out hm

/-! ## Lemmas about the extractor -/

theorem best_len_bounds : ∀ (s : List Char) (n L : Nat), best_len s n = some L →
    1 ≤ L ∧ L ≤ n ∧ lookahead_dd (s.drop L) = true
  | s, 0, L, h => by simp [best_len] at h
  | s, n + 1, L, h => by
    simp only [best_len] at h
    by_cases hl : lookahead_dd (s.drop (n + 1)) = true
    · rw [if_pos hl] at h
      obtain rfl : n + 1 = L := Option.some.inj h
      exact ⟨Nat.succ_le_succ (Nat.zero_le n), Nat.le_refl _, hl⟩
    · rw [if_neg hl] at h
      obtain ⟨h1, h2, h3⟩ := best_len_bounds s n L h
      exact ⟨h1, Nat.le_succ_of_le h2, h3⟩

theorem best_len_is_some : ∀ (s : List Char) (n L : Nat), 1 ≤ L → L ≤ n →
    lookahead_dd (s.drop L) = true → best_len s n ≠ none
  | _, 0, L, h1, h2, _ => by omega
  | s, n + 1, L, h1, h2, h3 => by
    simp only [best_len]
    by_cases hl : lookahead_dd (s.drop (n + 1)) = true
    · rw [if_pos hl]
      simp
    · rw [if_neg hl]
      have hLn : L ≤ n := by
        by_cases he : L = n + 1
        · exact absurd (he ▸ h3) hl
        · omega
      exact best_len_is_some s n L h1 hLn h3

theorem run_len_le_length : ∀ s : List Char, run_len s ≤ s.length
  | [] => Nat.le_refl 0
  | c :: cs => by
    simp only [run_len]
    by_cases hc : is_run_char c = true
    · rw [if_pos hc]
      exact Nat.succ_le_succ (run_len_le_length cs)
    · rw [if_neg hc]
      exact Nat.zero_le _

theorem take_all_run : ∀ (s : List Char) (L : Nat), L ≤ run_len s →
    (s.take L).all is_run_char = true
  | _, 0, _ => by simp
  | [], L + 1, _ => by simp
  | c :: cs, L + 1, h => by
    have hc : is_run_char c = true := by
      by_contra hc'
      rw [run_len, if_neg hc'] at h
      omega
    rw [run_len, if_pos hc] at h
    have ih := take_all_run cs L (Nat.le_of_succ_le_succ h)
    rw [List.take_succ_cons, List.all_cons, hc, ih]
    rfl

theorem run_len_ge : ∀ (s : List Char) (L : Nat),
    (s.take L).all is_run_char = true → L ≤ s.length → L ≤ run_len s
  | _, 0, _, _ => Nat.zero_le _
  | [], L + 1, _, hlen => by simp at hlen
  | c :: cs, L + 1, hall, hlen => by
    rw [List.take_succ_cons, List.all_cons, Bool.and_eq_true] at hall
    rw [run_len, if_pos hall.1]
    exact Nat.succ_le_succ (run_len_ge cs L hall.2 (by simpa using hlen))

theorem valid_run_all {r : List Char} (h : valid_run r = true) :
    r.all is_run_char = true := by
  cases r with
  | nil => simp [valid_run] at h
  | cons a r' =>
    rw [valid_run, Bool.and_eq_true] at h
    exact h.2

/-- Soundness of the first-priority search: whatever it returns is a run
of uppercase letters, digits and hyphens that occurs in the input
immediately followed by a `-<digit>-<digit>` suffix. -/
theorem search_with_suffix_sound : ∀ (s r : List Char),
    search_with_suffix s = some r →
    valid_run r = true ∧ occurs_with_suffix r s = true
  | [], r, h => by simp [search_with_suffix] at h
  | c :: cs, r, h => by
    simp only [search_with_suffix] at h
    by_cases hu : is_upper c = true
    · rw [if_pos hu] at h
      cases hb : best_len (c :: cs) (run_len (c :: cs)) with
      | none =>
        rw [hb] at h
        obtain ⟨hv, ho⟩ := search_with_suffix_sound cs r h
        refine ⟨hv, ?_⟩
        simp only [occurs_with_suffix, ho, Bool.or_true]
      | some L =>
        rw [hb] at h
        obtain rfl : (c :: cs).take L = r := Option.some.inj h
        obtain ⟨h1, h2, h3⟩ := best_len_bounds (c :: cs) (run_len (c :: cs)) L hb
        have hLlen : L ≤ (c :: cs).length := Nat.le_trans h2 (run_len_le_length (c :: cs))
        have hlen : ((c :: cs).take L).length = L := by
          rw [List.length_take]
          omega
        constructor
        · cases L with
          | zero => omega
          | succ L' =>
            have hall : ((c :: cs).take (L' + 1)).all is_run_char = true :=
              take_all_run (c :: cs) (L' + 1) h2
            rw [List.take_succ_cons] at hall ⊢
            rw [valid_run, hu, hall]
            rfl
        · simp only [occurs_with_suffix, hlen, beq_self_eq_true, h3, Bool.and_self,
            Bool.true_or]
    · rw [if_neg hu] at h
      obtain ⟨hv, ho⟩ := search_with_suffix_sound cs r h
      refine ⟨hv, ?_⟩
      simp only [occurs_with_suffix, ho, Bool.or_true]

/-- Completeness of the first-priority search: if some valid run occurs
with a `-<digit>-<digit>` suffix, the search finds a match (not
necessarily that run). -/
theorem occurs_search_some : ∀ (s r : List Char), valid_run r = true →
    occurs_with_suffix r s = true → search_with_suffix s ≠ none
  | [], r, _, ho => by simp [occurs_with_suffix] at ho
  | c :: cs, r, hv, ho => by
    simp only [occurs_with_suffix] at ho
    rw [Bool.or_eq_true] at ho
    rcases ho with hf | hr
    · rw [Bool.and_eq_true] at hf
      obtain ⟨hpre, hlook⟩ := hf
      have hr' : (c :: cs).take r.length = r := beq_iff_eq.mp hpre
      have hlen : r.length ≤ (c :: cs).length := by
        have := congrArg List.length hr'
        rw [List.length_take] at this
        omega
      have hL1 : 1 ≤ r.length := by
        cases r with
        | nil => simp [valid_run] at hv
        | cons a r' => simp
      have hrun : r.length ≤ run_len (c :: cs) :=
        run_len_ge (c :: cs) r.length (by rw [hr']; exact valid_run_all hv) hlen
      have hbl := best_len_is_some (c :: cs) (run_len (c :: cs)) r.length hL1 hrun hlook
      have hu : is_upper c = true := by
        cases r with
        | nil => simp [valid_run] at hv
        | cons a r' =>
          rw [List.length_cons, List.take_succ_cons] at hr'
          injection hr' with hca htail
          rw [valid_run, Bool.and_eq_true] at hv
          exact hca ▸ hv.1
      simp only [search_with_suffix]
      rw [if_pos hu]
      cases hb : best_len (c :: cs) (run_len (c :: cs)) with
      | some L => simp
      | none => exact absurd hb hbl
    · have ih := occurs_search_some cs r hv hr
      simp only [search_with_suffix]
      by_cases hu : is_upper c = true
      · rw [if_pos hu]
        cases hb : best_len (c :: cs) (run_len (c :: cs)) with
        | some L => simp
        | none => exact ih
      · rw [if_neg hu]
        exact ih

theorem search_with_suffix_substring : ∀ (s r : List Char),
    search_with_suffix s = some r → r <:+: s
  | [], r, h => by simp [search_with_suffix] at h
  | c :: cs, r, h => by
    simp only [search_with_suffix] at h
    by_cases hu : is_upper c = true
    · rw [if_pos hu] at h
      cases hb : best_len (c :: cs) (run_len (c :: cs)) with
      | none =>
        rw [hb] at h
        exact List.infix_cons (search_with_suffix_substring cs r h)
      | some L =>
        rw [hb] at h
        obtain rfl : (c :: cs).take L = r := Option.some.inj h
        have hpre := List.take_prefix L (c :: cs)
        exact List.IsPrefix.isInfix hpre
    · rw [if_neg hu] at h
      exact List.infix_cons (search_with_suffix_substring cs r h)

theorem search_normal_substring : ∀ (s r : List Char),
    search_normal s = some r → r <:+: s
  | [], r, h => by simp [search_normal] at h
  | c :: cs, r, h => by
    simp only [search_normal] at h
    by_cases hu : is_upper c = true
    · rw [if_pos hu] at h
      obtain rfl : (c :: cs).take (run_len (c :: cs)) = r := Option.some.inj h
      have hpre := List.take_prefix (run_len (c :: cs)) (c :: cs)
      exact List.IsPrefix.isInfix hpre
    · rw [if_neg hu] at h
      exact List.infix_cons (search_normal_substring cs r h)

theorem search_with_suffix_none_of_no_upper : ∀ s : List Char,
    (∀ c ∈ s, is_upper c = false) → search_with_suffix s = none
  | [], _ => rfl
  | c :: cs, h => by
    simp only [search_with_suffix]
    rw [if_neg (by rw [h c (List.mem_cons_self c cs)]; simp)]
    exact search_with_suffix_none_of_no_upper cs
      (fun c' hm => h c' (List.mem_cons_of_mem c hm))

theorem search_normal_none_of_no_upper : ∀ s : List Char,
    (∀ c ∈ s, is_upper c = false) → search_normal s = none
  | [], _ => rfl
  | c :: cs, h => by
    simp only [search_normal]
    rw [if_neg (by rw [h c (List.mem_cons_self c cs)]; simp)]
    exact search_normal_none_of_no_upper cs
      (fun c' hm => h c' (List.mem_cons_of_mem c hm))

/-! ## Claims -/

/-- C1 (counterexample): a batch whose upstream list has 3 codes while the
downstream has 2 — sets differ, no movement rows, so the claim says
processing proceeds past the count guard — is skipped at the count guard
with no write. -/
theorem c1_count_mismatch_skipped_concrete :
    process_barcode_creation
      [⟨1, 1, "A", false⟩, ⟨2, 1, "B", false⟩, ⟨3, 1, "C", false⟩]
      ⟨[⟨"ORD-1", "I", "A", "s", "e", "t"⟩, ⟨"ORD-1", "I", "B", "s", "e", "t"⟩], [], []⟩
      ⟨1, "T", "I", "N", "ORD-1"⟩ "t1" FailPoint.no_fail
    = (⟨[⟨"ORD-1", "I", "A", "s", "e", "t"⟩, ⟨"ORD-1", "I", "B", "s", "e", "t"⟩], [], []⟩,
       Outcome.skip_count) := by decide

/-- C1 (amended): a count mismatch IS a skip condition: whenever the
upstream and downstream lists differ in size the batch is skipped at the
count guard, before the equality and movement-lock guards, with no
write. -/
theorem c1_count_mismatch_skips (mes_data : List Barcode) (db : PlusDb)
    (bc : BarcodeCreation) (now : String) (fp : FailPoint)
    (h : (query_mes_barcode_creation_barcodes mes_data bc.bc_id).length
        ≠ (query_plus_imported_barcodes db.imported
            (extract_order_number bc.order_code)).length) :
    process_barcode_creation mes_data db bc now fp = (db, Outcome.skip_count) :=
  process_skip_count mes_data db bc now fp h

theorem c1_count_mismatch_skips_witness :
    process_barcode_creation [⟨1, 1, "A", false⟩]
      ⟨[], [], []⟩ ⟨1, "T", "I", "N", "ORD-1"⟩ "t1" FailPoint.no_fail
    = (⟨[], [], []⟩, Outcome.skip_count) :=
  c1_count_mismatch_skips [⟨1, 1, "A", false⟩] ⟨[], [], []⟩
    ⟨1, "T", "I", "N", "ORD-1"⟩ "t1" FailPoint.no_fail (by decide)

/-- C2 (counterexample): the first batch's transaction fails; the state is
rolled back, but the run stops with the single outcome `failed` — the
second batch (order `ORD-2`, which has drift and would be reimported) is
never processed. -/
theorem c2_failure_aborts_run_concrete :
    main_loop [⟨1, 1, "A", false⟩, ⟨2, 2, "C", false⟩] "t1"
      [⟨1, "T1", "I", "N", "ORD-1"⟩, ⟨2, "T2", "I", "N", "ORD-2"⟩]
      [FailPoint.after_delete]
      ⟨[⟨"ORD-1", "I", "B", "s", "e", "t"⟩, ⟨"ORD-2", "I", "D", "s", "e", "t"⟩], [], []⟩
    = (⟨[⟨"ORD-1", "I", "B", "s", "e", "t"⟩, ⟨"ORD-2", "I", "D", "s", "e", "t"⟩], [], []⟩,
       [Outcome.failed]) := by decide

/-- C2 (amended): when a batch's delete/insert fails, the transaction is
rolled back (the downstream state is exactly the pre-batch state), but the
exception is re-raised: the run terminates with that single `failed`
outcome and subsequent batches are NOT processed. -/
theorem c2_failure_rolls_back_and_aborts (mes_data : List Barcode) (db db' : PlusDb)
    (bc : BarcodeCreation) (rest : List BarcodeCreation) (now : String)
    (fp : FailPoint) (fps : List FailPoint)
    (h : process_barcode_creation mes_data db bc now fp = (db', Outcome.failed)) :
    db' = db
      ∧ main_loop mes_data now (bc :: rest) (fp :: fps) db = (db, [Outcome.failed]) := by
  have h2 : (process_barcode_creation mes_data db bc now fp).2 = Outcome.failed := by
    rw [h]
  have h1 : (process_barcode_creation mes_data db bc now fp).1 = db :=
    process_fst_of_not_reimported mes_data db bc now fp
      (fun d i he => Outcome.noConfusion (h2 ▸ he))
  have hd : db' = db := by
    rw [h] at h1
    exact h1
  have h3 := main_loop_cons_failed mes_data now bc rest (fp :: fps) db h2
  refine ⟨hd, ?_⟩
  rw [h3, show (fp :: fps).headD FailPoint.no_fail = fp from rfl, h, hd]

theorem c2_failure_rolls_back_and_aborts_witness :
    (⟨[⟨"ORD-1", "I", "B", "s", "e", "t"⟩], [], []⟩ : PlusDb)
        = ⟨[⟨"ORD-1", "I", "B", "s", "e", "t"⟩], [], []⟩
      ∧ main_loop [⟨1, 1, "A", false⟩] "t1"
          [⟨1, "T1", "I", "N", "ORD-1"⟩, ⟨2, "T2", "I", "N", "ORD-2"⟩]
          [FailPoint.after_delete]
          ⟨[⟨"ORD-1", "I", "B", "s", "e", "t"⟩], [], []⟩
        = (⟨[⟨"ORD-1", "I", "B", "s", "e", "t"⟩], [], []⟩, [Outcome.failed]) :=
  c2_failure_rolls_back_and_aborts [⟨1, 1, "A", false⟩]
    ⟨[⟨"ORD-1", "I", "B", "s", "e", "t"⟩], [], []⟩
    ⟨[⟨"ORD-1", "I", "B", "s", "e", "t"⟩], [], []⟩
    ⟨1, "T1", "I", "N", "ORD-1"⟩ [⟨2, "T2", "I", "N", "ORD-2"⟩] "t1"
    FailPoint.after_delete [] (by decide)

/-- C3 (counterexample): on `"XYZ99-Note"` the plain-form regex matches
greedily from the first uppercase letter and absorbs the hyphen and the
following uppercase `N`, returning `"XYZ99-N"`, not the `"XYZ99"` the
claim states. -/
theorem c3_example_contradicts_claim :
    extract_order_number "XYZ99-Note" = "XYZ99-N"
      ∧ extract_order_number "XYZ99-Note" ≠ "XYZ99" := by decide

/-- C3 (amended): for a raw string that starts with an uppercase letter
and contains no run followed by a `-<digit>-<digit>` suffix, `extract`
returns the run of uppercase letters, digits and hyphens that starts at
the first character, extended maximally (the leftmost greedy match, not
the longest run in the string); in particular
`extract("XYZ99-Note") = "XYZ99-N"`. -/
theorem c3_plain_form_leftmost_run (c : Char) (cs : List Char)
    (hu : is_upper c = true)
    (hns : ∀ r, valid_run r = true → occurs_with_suffix r (c :: cs) = false) :
    extract_order_number (String.mk (c :: cs))
      = String.mk ((c :: cs).take (run_len (c :: cs))) := by
  have hs : search_with_suffix (c :: cs) = none := by
    cases h : search_with_suffix (c :: cs) with
    | none => rfl
    | some r =>
      obtain ⟨hv, ho⟩ := search_with_suffix_sound (c :: cs) r h
      rw [hns r hv] at ho
      exact Bool.noConfusion ho
  have hdata : (String.mk (c :: cs)).data = c :: cs := rfl
  simp only [extract_order_number, hdata, hs]
  simp only [search_normal]
  rw [if_pos hu]

theorem c3_plain_form_leftmost_run_witness :
    extract_order_number "XYZ99-Note" = "XYZ99-N" := by
  have h := c3_plain_form_leftmost_run 'X' "YZ99-Note".data (by decide)
    (fun r hv => by
      by_contra ho
      rw [Bool.not_eq_false] at ho
      exact occurs_search_some ('X' :: "YZ99-Note".data) r hv ho (by decide))
  have e1 : String.mk ('X' :: "YZ99-Note".data) = "XYZ99-Note" := by decide
  have e2 : String.mk (('X' :: "YZ99-Note".data).take
      (run_len ('X' :: "YZ99-Note".data))) = "XYZ99-N" := by decide
  rw [e1, e2] at h
  exact h

/-- C4: the reimport transaction is atomic.  A failure injected after the
delete (or after any number of insert rows) rolls the whole transaction
back: the committed state is exactly the pre-reimport state, so the
imported row count for the order code equals its pre-reimport count —
neither zero nor a partial set.  The same holds through the engine body
for any batch. -/
theorem c4_reimport_atomic :
    (∀ (db : PlusDb) (o c now : String) (bs : List Barcode),
      (reimport db o c bs now FailPoint.after_delete).1 = db
        ∧ (query_plus_imported_barcodes
            (reimport db o c bs now FailPoint.after_delete).1.imported o).length
          = (query_plus_imported_barcodes db.imported o).length)
    ∧ (∀ (db : PlusDb) (o c now : String) (bs : List Barcode) (k : Nat),
      (reimport db o c bs now (FailPoint.during_insert k)).1 = db)
    ∧ (∀ (mes_data : List Barcode) (db : PlusDb) (bc : BarcodeCreation) (now : String),
      (process_barcode_creation mes_data db bc now FailPoint.after_delete).1 = db) := by
  refine ⟨fun db o c now bs => ⟨rfl, rfl⟩, fun db o c now bs k => rfl,
    fun mes_data db bc now => ?_⟩
  rcases process_cases mes_data db bc now FailPoint.after_delete with
    ⟨hp, -⟩ | ⟨hp, -⟩ | ⟨hp, -⟩ | ⟨hfp, -⟩ | ⟨-, hp, -⟩
  · rw [hp]
  · rw [hp]
  · rw [hp]
  · exact FailPoint.noConfusion hfp
  · rw [hp]

/-- C5: movement lock.  Run-level: if any incoming or outgoing row exists
for an order code, no run — whatever batches it processes and wherever
failures are injected — changes that order code's imported rows.
Batch-level: whenever a batch's outcome is a reimport, the incoming and
outgoing queries for its extracted order code were both empty at the time
of the check. -/
theorem c5_movement_lock :
    (∀ (mes_data : List Barcode) (now : String) (creations : List BarcodeCreation)
      (fps : List FailPoint) (db : PlusDb) (o : String),
      (query_plus_incoming_barcodes db.incoming o ≠ []
        ∨ query_plus_outgoing_barcodes db.outgoing o ≠ []) →
      query_plus_imported_barcodes (main_loop mes_data now creations fps db).1.imported o
        = query_plus_imported_barcodes db.imported o)
    ∧ (∀ (mes_data : List Barcode) (db : PlusDb) (bc : BarcodeCreation)
      (now : String) (fp : FailPoint) (d i : Nat),
      (process_barcode_creation mes_data db bc now fp).2 = Outcome.reimported d i →
      query_plus_incoming_barcodes db.incoming (extract_order_number bc.order_code) = []
        ∧ query_plus_outgoing_barcodes db.outgoing (extract_order_number bc.order_code) = []) := by
  refine ⟨fun mes_data now creations fps db o h =>
    main_loop_movement_locked mes_data now o creations fps db h,
    fun mes_data db bc now fp d i h => ?_⟩
  rcases process_cases mes_data db bc now fp with
    ⟨hp, -⟩ | ⟨hp, -⟩ | ⟨hp, -⟩ | ⟨-, hp, -, -, hi, ho⟩ | ⟨-, hp, -⟩ <;> rw [hp] at h
  · exact Outcome.noConfusion h
  · exact Outcome.noConfusion h
  · exact Outcome.noConfusion h
  · exact ⟨hi, ho⟩
  · exact Outcome.noConfusion h

theorem c5_movement_lock_witness :
    query_plus_imported_barcodes
        (main_loop [⟨1, 1, "A", false⟩] "t1" [⟨1, "T1", "I", "N", "ORD-1"⟩] []
          ⟨[⟨"ORD-1", "I", "B", "s", "e", "t"⟩], [⟨"ORD-1", "X"⟩], []⟩).1.imported "ORD-1"
      = query_plus_imported_barcodes
          [⟨"ORD-1", "I", "B", "s", "e", "t"⟩] "ORD-1"
    ∧ (query_plus_incoming_barcodes ([] : List MoveRow) (extract_order_number "ORD-1") = []
        ∧ query_plus_outgoing_barcodes ([] : List MoveRow) (extract_order_number "ORD-1") = []) :=
  ⟨c5_movement_lock.1 [⟨1, 1, "A", false⟩] "t1" [⟨1, "T1", "I", "N", "ORD-1"⟩] []
      ⟨[⟨"ORD-1", "I", "B", "s", "e", "t"⟩], [⟨"ORD-1", "X"⟩], []⟩ "ORD-1"
      (Or.inl (by decide)),
   c5_movement_lock.2 [⟨1, 1, "A", false⟩]
      ⟨[⟨"ORD-1", "I", "B", "s", "e", "t"⟩], [], []⟩
      ⟨1, "T1", "I", "N", "ORD-1"⟩ "t1" FailPoint.no_fail 1 1 (by decide)⟩

/-- C6: a successful reimport is a full replace: afterwards the imported
codes downstream for the extracted order code are exactly the upstream
batch's non-deleted barcode codes (in upstream order, one row per
upstream row — no stale rows survive, no duplicates are introduced). -/
theorem c6_reimport_full_replace (mes_data : List Barcode) (db : PlusDb)
    (bc : BarcodeCreation) (now : String) (fp : FailPoint) (d i : Nat)
    (h : (process_barcode_creation mes_data db bc now fp).2 = Outcome.reimported d i) :
    query_plus_imported_barcodes
        (process_barcode_creation mes_data db bc now fp).1.imported
        (extract_order_number bc.order_code)
      = (query_mes_barcode_creation_barcodes mes_data bc.bc_id).map (fun b => b.code) := by
  rcases process_cases mes_data db bc now fp with
    ⟨hp, -⟩ | ⟨hp, -⟩ | ⟨hp, -⟩ | ⟨-, hp, -⟩ | ⟨-, hp, -⟩ <;> rw [hp] at h ⊢
  · exact Outcome.noConfusion h
  · exact Outcome.noConfusion h
  · exact Outcome.noConfusion h
  · exact query_reimported_same _ _ _ _ _
  · exact Outcome.noConfusion h

theorem c6_reimport_full_replace_witness :
    query_plus_imported_barcodes
        (process_barcode_creation [⟨1, 1, "A", false⟩]
          ⟨[⟨"ORD-1", "I", "B", "s", "e", "t"⟩], [], []⟩
          ⟨1, "T1", "I", "N", "ORD-1"⟩ "t1" FailPoint.no_fail).1.imported
        (extract_order_number "ORD-1")
      = (query_mes_barcode_creation_barcodes [⟨1, 1, "A", false⟩] 1).map (fun b => b.code) :=
  c6_reimport_full_replace [⟨1, 1, "A", false⟩]
    ⟨[⟨"ORD-1", "I", "B", "s", "e", "t"⟩], [], []⟩
    ⟨1, "T1", "I", "N", "ORD-1"⟩ "t1" FailPoint.no_fail 1 1 (by decide)

/-- C7: if the upstream code set equals the downstream imported code set
as sets (order-independent, duplicates collapsed), the engine performs no
write for that batch: either the count guard or the equality guard skips
it, and the downstream state is unchanged. -/
theorem c7_equal_sets_no_write (mes_data : List Barcode) (db : PlusDb)
    (bc : BarcodeCreation) (now : String) (fp : FailPoint)
    (h : codes_set_eq
        ((query_mes_barcode_creation_barcodes mes_data bc.bc_id).map (fun b => b.code))
        (query_plus_imported_barcodes db.imported
          (extract_order_number bc.order_code)) = true) :
    (process_barcode_creation mes_data db bc now fp).1 = db
      ∧ ((process_barcode_creation mes_data db bc now fp).2 = Outcome.skip_count
        ∨ (process_barcode_creation mes_data db bc now fp).2 = Outcome.skip_equal) := by
  rcases process_cases mes_data db bc now fp with
    ⟨hp, -⟩ | ⟨hp, -⟩ | ⟨hp, -, hs, -⟩ | ⟨-, hp, -, hs, -⟩ | ⟨-, hp, -, hs, -⟩
  · rw [hp]
    exact ⟨rfl, Or.inl rfl⟩
  · rw [hp]
    exact ⟨rfl, Or.inr rfl⟩
  · rw [h] at hs
    exact Bool.noConfusion hs
  · rw [h] at hs
    exact Bool.noConfusion hs
  · rw [h] at hs
    exact Bool.noConfusion hs

theorem c7_equal_sets_no_write_witness :
    (process_barcode_creation [⟨1, 1, "A", false⟩, ⟨2, 1, "A", false⟩]
        ⟨[⟨"ORD-1", "I", "A", "s", "e", "t"⟩], [], []⟩
        ⟨1, "T1", "I", "N", "ORD-1"⟩ "t1" FailPoint.no_fail).1
      = ⟨[⟨"ORD-1", "I", "A", "s", "e", "t"⟩], [], []⟩
    ∧ ((process_barcode_creation [⟨1, 1, "A", false⟩, ⟨2, 1, "A", false⟩]
        ⟨[⟨"ORD-1", "I", "A", "s", "e", "t"⟩], [], []⟩
        ⟨1, "T1", "I", "N", "ORD-1"⟩ "t1" FailPoint.no_fail).2 = Outcome.skip_count
      ∨ (process_barcode_creation [⟨1, 1, "A", false⟩, ⟨2, 1, "A", false⟩]
        ⟨[⟨"ORD-1", "I", "A", "s", "e", "t"⟩], [], []⟩
        ⟨1, "T1", "I", "N", "ORD-1"⟩ "t1" FailPoint.no_fail).2 = Outcome.skip_equal) :=
  c7_equal_sets_no_write [⟨1, 1, "A", false⟩, ⟨2, 1, "A", false⟩]
    ⟨[⟨"ORD-1", "I", "A", "s", "e", "t"⟩], [], []⟩
    ⟨1, "T1", "I", "N", "ORD-1"⟩ "t1" FailPoint.no_fail (by decide)

/-- C8 (counterexample): the suffixed-form search is leftmost, not
longest: in `"AB-1-2 LONGRUN-3-4"` the run `"LONGRUN"` (7 characters) is
immediately followed by a `-<digit>-<digit>` suffix, yet `extract`
returns the shorter leftmost match `"AB"`. -/
theorem c8_not_longest_run :
    extract_order_number "AB-1-2 LONGRUN-3-4" = "AB"
      ∧ valid_run "LONGRUN".data = true
      ∧ occurs_with_suffix "LONGRUN".data "AB-1-2 LONGRUN-3-4".data = true
      ∧ (extract_order_number "AB-1-2 LONGRUN-3-4").length < "LONGRUN".length := by
  decide

/-- C8 (amended): when the suffixed search matches, `extract` returns the
matched run: a run of uppercase letters, digits and hyphens occurring in
the input immediately followed by a `-<digit>-<digit>` suffix, returned
with the suffix stripped.  The search is leftmost-greedy, so the result
need not be the longest such run; in particular
`extract("ABC-123-1-2") = "ABC-123"`. -/
theorem c8_suffixed_form_match (s : String) (r : List Char)
    (h : search_with_suffix s.data = some r) :
    extract_order_number s = String.mk r
      ∧ valid_run r = true
      ∧ occurs_with_suffix r s.data = true := by
  obtain ⟨hv, ho⟩ := search_with_suffix_sound s.data r h
  refine ⟨?_, hv, ho⟩
  simp only [extract_order_number, h]

theorem c8_suffixed_form_match_witness :
    extract_order_number "ABC-123-1-2" = "ABC-123"
      ∧ valid_run "ABC-123".data = true
      ∧ occurs_with_suffix "ABC-123".data "ABC-123-1-2".data = true := by
  have h := c8_suffixed_form_match "ABC-123-1-2" "ABC-123".data (by decide)
  have e : String.mk "ABC-123".data = "ABC-123" := by decide
  rw [e] at h
  exact h

/-- C9 (counterexample): two recent batches that extract the same order
code (`"ORD-1"`, as happens for split-shipment order strings) oscillate:
with upstream codes `["A"]` and `["B"]` and downstream `["A"]`, the first
run ends with `["B"]`, and the second run — with no data change in
between — reimports twice, i.e. performs writes. -/
theorem c9_second_run_writes_concrete :
    (main_loop [⟨1, 1, "A", false⟩, ⟨2, 2, "B", false⟩] "t2"
      [⟨1, "T1", "I", "N", "ORD-1"⟩, ⟨2, "T2", "I", "N", "ORD-1"⟩] []
      (main_loop [⟨1, 1, "A", false⟩, ⟨2, 2, "B", false⟩] "t1"
        [⟨1, "T1", "I", "N", "ORD-1"⟩, ⟨2, "T2", "I", "N", "ORD-1"⟩] []
        ⟨[⟨"ORD-1", "I", "A", "s", "e", "t0"⟩], [], []⟩).1).2
    = [Outcome.reimported 1 1, Outcome.reimported 1 1] := by decide

/-- C9 (amended): when the processed batches extract pairwise-distinct
order codes, running the engine twice with no data change in between is
idempotent: the second run performs zero writes — the downstream state is
unchanged and every batch skips (Guard B or an earlier guard trips). -/
theorem c9_idempotent_distinct_orders (mes_data : List Barcode)
    (now now2 : String) (creations : List BarcodeCreation) (db : PlusDb)
    (h : (creations.map (fun bc => extract_order_number bc.order_code)).Nodup) :
    (main_loop mes_data now2 creations []
        (main_loop mes_data now creations [] db).1).1
      = (main_loop mes_data now creations [] db).1
    ∧ ∀ out ∈ (main_loop mes_data now2 creations []
        (main_loop mes_data now creations [] db).1).2, is_skip out = true :=
  second_run_all_skips mes_data now now2 creations db h

theorem c9_idempotent_distinct_orders_witness :
    (main_loop [⟨1, 1, "A", false⟩] "t2"
        [⟨1, "T1", "I", "N", "ORD-1"⟩]
        [] (main_loop [⟨1, 1, "A", false⟩] "t1" [⟨1, "T1", "I", "N", "ORD-1"⟩] []
          ⟨[⟨"ORD-1", "I", "B", "s", "e", "t"⟩], [], []⟩).1).1
      = (main_loop [⟨1, 1, "A", false⟩] "t1" [⟨1, "T1", "I", "N", "ORD-1"⟩] []
          ⟨[⟨"ORD-1", "I", "B", "s", "e", "t"⟩], [], []⟩).1
    ∧ ∀ out ∈ (main_loop [⟨1, 1, "A", false⟩] "t2"
        [⟨1, "T1", "I", "N", "ORD-1"⟩]
        [] (main_loop [⟨1, 1, "A", false⟩] "t1" [⟨1, "T1", "I", "N", "ORD-1"⟩] []
          ⟨[⟨"ORD-1", "I", "B", "s", "e", "t"⟩], [], []⟩).1).2, is_skip out = true :=
  c9_idempotent_distinct_orders [⟨1, 1, "A", false⟩] "t1" "t2"
    [⟨1, "T1", "I", "N", "ORD-1"⟩]
    ⟨[⟨"ORD-1", "I", "B", "s", "e", "t"⟩], [], []⟩ (by decide)

/-- C10: for every input string the extraction result is a contiguous
substring of the input (a regex match, or the input itself as fallback) —
`extract` never fails and never invents characters — and when the input
contains no uppercase letter it is returned unchanged. -/
theorem c10_extract_substring_total (s : String) :
    (extract_order_number s).data <:+: s.data
      ∧ ((∀ c ∈ s.data, is_upper c = false) → extract_order_number s = s) := by
  constructor
  · cases h : search_with_suffix s.data with
    | some r =>
      have hi := search_with_suffix_substring s.data r h
      simp only [extract_order_number, h]
      exact hi
    | none =>
      cases h2 : search_normal s.data with
      | some m =>
        have hi := search_normal_substring s.data m h2
        simp only [extract_order_number, h, h2]
        exact hi
      | none =>
        simp only [extract_order_number, h, h2]
        exact List.infix_rfl
  · intro hno
    have h := search_with_suffix_none_of_no_upper s.data hno
    have h2 := search_normal_none_of_no_upper s.data hno
    simp only [extract_order_number, h, h2]

theorem c10_extract_substring_total_witness :
    (extract_order_number "abc12").data <:+: "abc12".data
      ∧ extract_order_number "abc12" = "abc12" :=
  ⟨(c10_extract_substring_total "abc12").1,
   (c10_extract_substring_total "abc12").2 (by decide)⟩

end SyncReimportSn
